import Mathlib

/-!
Verification development for the MoviePilot-Plugins repository
(plugins/anistrm and plugins.v2/disk_space_monitor).
Strings are modelled as `List Char`.  Python string operations used by the
source (`str.endswith`, `in`, `str.replace`, `str.strip`, f-string
concatenation, `urllib.parse.quote`) are embedded as executable functions
on `List Char` below, each faithful to the Python semantics for the fixed
patterns the source uses.
-/

/-- The canonical direct-stream suffix `.mp4?d=true` used by
`_normalize_openani_url`. -/
def canonSuffix : List Char := (".mp4?d=true").data

/-- The alternate direct-stream marker `?d=mp4`. -/
def dMarker : List Char := ("?d=mp4").data

/-- The media extension `.mp4`. -/
def mp4Ext : List Char := (".mp4").data

/-- The query tail `?d=true` appended by rule 3 of the normalizer. -/
def dTrueQuery : List Char := ("?d=true").data

/-- `endsWith s suf` models Python `s.endswith(suf)`. -/
def endsWith (s suf : List Char) : Bool := suf.isSuffixOf s

/-- `containsMarker s` models Python `"?d=mp4" in s`:
scans left to right for an occurrence of the six-character marker. -/
def containsMarker : List Char → Bool
  | '?' :: 'd' :: '=' :: 'm' :: 'p' :: '4' :: _ => true
  | _ :: rest => containsMarker rest
  | [] => false

/-- `replaceMarker s` models Python `s.replace("?d=mp4", ".mp4?d=true")`:
replaces every (leftmost, non-overlapping) occurrence of the marker
`?d=mp4` by the canonical suffix `.mp4?d=true`. -/
def replaceMarker : List Char → List Char
  | '?' :: 'd' :: '=' :: 'm' :: 'p' :: '4' :: rest => canonSuffix ++ replaceMarker rest
  | c :: rest => c :: replaceMarker rest
  | [] => []

/-- Embedding of `ANiStrm._normalize_openani_url` (src/plugins/anistrm,
lines 205-218): empty input maps to empty output; an input already ending
in `.mp4?d=true` is returned unchanged; otherwise an input containing
`?d=mp4` has that marker replaced by `.mp4?d=true`; otherwise an input
ending in `.mp4` gets `?d=true` appended; otherwise `.mp4?d=true` is
appended. -/
def normalizeOpenaniUrl (url : List Char) : List Char :=
  if url = [] then []
  else if endsWith url canonSuffix then url
  else if containsMarker url then replaceMarker url
  else if endsWith url mp4Ext then url ++ dTrueQuery
  else url ++ canonSuffix

/-- Embedding of the bucket selection in `ANiStrm.__get_ani_season`
(src/plugins/anistrm, lines 124-143): months 1-3 map to 1, 4-6 to 4,
7-9 to 7, anything else to 10. -/
def getAniSeasonBucket (month : Nat) : Nat :=
  if month ∈ ([1, 2, 3] : List Nat) then 1
  else if month ∈ ([4, 5, 6] : List Nat) then 4
  else if month ∈ ([7, 8, 9] : List Nat) then 7
  else 10

/-- Embedding of `ANiStrm.__get_ani_season`: formats `{year}-{season}`.
The source takes year and month from the system clock (or the optional
`idx_month` argument); here both are explicit inputs. -/
def getAniSeason (year month : Nat) : List Char :=
  Nat.toDigits 10 year ++ '-' :: Nat.toDigits 10 (getAniSeasonBucket month)

/-- The bucket mapping as the spec states it: bucket 1 for months 1-3,
4 for 4-6, 7 for 7-9, 10 for 10-12 (spec-side definition, compared with
the source-side `getAniSeasonBucket`). -/
def specBucket (month : Nat) : Nat :=
  if month ≤ 3 then 1 else if month ≤ 6 then 4 else if month ≤ 9 then 7 else 10

/-- UTF-8 encoding of a single character, as `urllib.parse.quote` performs
before percent-encoding (Python encodes the string to UTF-8 bytes). -/
def utf8Bytes (c : Char) : List Nat :=
  let n := c.toNat
  if n < 0x80 then [n]
  else if n < 0x800 then [0xC0 + n / 0x40, 0x80 + n % 0x40]
  else if n < 0x10000 then [0xE0 + n / 0x1000, 0x80 + n / 0x40 % 0x40, 0x80 + n % 0x40]
  else [0xF0 + n / 0x40000, 0x80 + n / 0x1000 % 0x40, 0x80 + n / 0x40 % 0x40, 0x80 + n % 0x40]

/-- The bytes `urllib.parse.quote` never encodes even with `safe=''`:
ASCII letters, digits, and `_.-~`. -/
def alwaysSafeByte (b : Nat) : Bool :=
  decide ((0x41 ≤ b ∧ b ≤ 0x5A) ∨ (0x61 ≤ b ∧ b ≤ 0x7A) ∨ (0x30 ≤ b ∧ b ≤ 0x39) ∨
    b = 0x5F ∨ b = 0x2E ∨ b = 0x2D ∨ b = 0x7E)

/-- Upper-case hexadecimal digit for a value below 16. -/
def hexUpper (n : Nat) : Char :=
  if n < 10 then Char.ofNat (0x30 + n) else Char.ofNat (0x41 + n - 10)

/-- Percent-encode one byte unless it is always safe. -/
def encodeByte (b : Nat) : List Char :=
  if alwaysSafeByte b then [Char.ofNat b] else ['%', hexUpper (b / 16), hexUpper (b % 16)]

/-- Embedding of `urllib.parse.quote(s, safe='')` as used in
`__touch_strm_file`. -/
def pquote (s : List Char) : List Char :=
  (((s.map utf8Bytes).flatten).map encodeByte).flatten

/-- A snapshot of the filesystem state the plugin reads and writes: the
existing directories, and the files as an association list from path to
content (most recent write first; `List.lookup` finds the current
content). -/
structure FS where
  dirs : List (List Char)
  files : List (List Char × List Char)
deriving DecidableEq

/-- Injected outcomes for the two fallible filesystem operations of
`__touch_strm_file`: whether `os.makedirs` succeeds and whether
`open`/`write` succeeds. -/
structure FsEnv where
  mkdirOk : Bool
  writeOk : Bool
deriving DecidableEq

/-- The reference-file extension `.strm`. -/
def strmExt : List Char := (".strm").data

/-- The catalog's streaming host base URL. -/
def aniBase : List Char := ("https://openani.an-i.workers.dev/").data

/-- The target path built by `__touch_strm_file`:
`f'{self._storageplace}/{file_name}.strm'` — raw interpolation, the display
name inserted verbatim. -/
def pathOf (storageplace fileName : List Char) : List Char :=
  storageplace ++ '/' :: (fileName ++ strmExt)

/-- The playable URL derived when no direct link is given:
`f'https://openani.an-i.workers.dev/{self._date}/{encoded_filename}.mp4?d=true'`
with the file name percent-encoded via `quote(file_name, safe='')`. -/
def defaultSrcUrl (date fileName : List Char) : List Char :=
  aniBase ++ date ++ '/' :: (pquote fileName ++ canonSuffix)

/-- The content selection of `__touch_strm_file`: `if not file_url` (absent
or empty string) derive the season URL, else normalize the given link. -/
def srcUrlFor (date fileName : List Char) (fileUrl : Option (List Char)) : List Char :=
  match fileUrl with
  | none => defaultSrcUrl date fileName
  | some u => if u = [] then defaultSrcUrl date fileName else normalizeOpenaniUrl u

/-- The second half of `__touch_strm_file`: compute the URL and path, skip
if the target exists, else attempt the write. -/
def touchWrite (env : FsEnv) (storageplace date : List Char) (fs : FS)
    (fileName : List Char) (fileUrl : Option (List Char)) : FS × Bool :=
  let srcUrl := srcUrlFor date fileName fileUrl
  let path := pathOf storageplace fileName
  if (fs.files.lookup path).isSome then (fs, false)
  else if env.writeOk then ({ fs with files := (path, srcUrl) :: fs.files }, true)
  else (fs, false)

/-- Embedding of `ANiStrm.__touch_strm_file` (src/plugins/anistrm, lines
220-251): first ensure the storage directory exists (`os.makedirs` when the
configured place is non-empty and absent; a failure is caught and the call
returns `False`), then build the URL and path, return `False` without
touching anything when the target file exists, else write the URL as the
entire content (a write failure is caught and returns `False`). -/
def touchStrmFile (env : FsEnv) (storageplace date : List Char) (fs : FS)
    (fileName : List Char) (fileUrl : Option (List Char)) : FS × Bool :=
  if storageplace ≠ [] ∧ storageplace ∉ fs.dirs then
    if env.mkdirOk then
      touchWrite env storageplace date { fs with dirs := storageplace :: fs.dirs } fileName fileUrl
    else (fs, false)
  else touchWrite env storageplace date fs fileName fileUrl

/-- The full-backfill loop body of `ANiStrm.__task` (src/plugins/anistrm,
lines 262-268): for each listed name call `__touch_strm_file` with no
direct link, counting created files; the result also carries the per-entry
`created` trace in order. -/
def taskFullTrace (env : FsEnv) (storageplace date : List Char) :
    FS → List (List Char) → FS × Nat × List Bool
  | fs, [] => (fs, 0, [])
  | fs, n :: rest =>
    let r := touchStrmFile env storageplace date fs n none
    let t := taskFullTrace env storageplace date r.1 rest
    (t.1, (if r.2 then 1 else 0) + t.2.1, r.2 :: t.2.2)

/-- The incremental loop body of `ANiStrm.__task` (lines 256-261): for each
feed entry `{title, link}` call `__touch_strm_file` with the entry's link. -/
def taskLatestTrace (env : FsEnv) (storageplace date : List Char) :
    FS → List (List Char × List Char) → FS × Nat × List Bool
  | fs, [] => (fs, 0, [])
  | fs, e :: rest =>
    let r := touchStrmFile env storageplace date fs e.1 (some e.2)
    let t := taskLatestTrace env storageplace date r.1 rest
    (t.1, (if r.2 then 1 else 0) + t.2.1, r.2 :: t.2.2)

/-- Embedding of `ANiStrm.__task` (lines 253-270): on full-backfill process
the season listing, otherwise the latest-updates feed; the fetched lists
are passed in as the results of the respective calls.  The function always
returns normally with the final filesystem, the created count and the
per-entry trace — the source has no failing terminal state. -/
def taskTrace (env : FsEnv) (storageplace date : List Char) (fs : FS) (fulladd : Bool)
    (rss : List (List Char × List Char)) (names : List (List Char)) : FS × Nat × List Bool :=
  if fulladd then taskFullTrace env storageplace date fs names
  else taskLatestTrace env storageplace date fs rss

/-- The directory a path denotes a file inside: everything before the last
`/` of the path (the empty list when the path has no separator). -/
def parentDir (p : List Char) : List Char :=
  ((p.reverse.dropWhile (fun c => c != '/')).drop 1).reverse

/-- Execution of the loop of the `retry` decorator (src/plugins/anistrm,
lines 17-46).  `f i` is the outcome of the i-th invocation of the wrapped
function (`some v`: it returned `v`; `none`: it raised the configured
exception class).  Arguments after `ret` are the loop state: remaining
tries `mtries`, current delay `mdelay`, and invocations so far `idx`.
Returns the final value, the total number of invocations, and the list of
delays slept in order (the source sleeps `mdelay` after every failure,
then multiplies the delay by `backoff`). -/
def retryExec {α : Type} (f : Nat → Option α) (backoff : Nat) (ret : α) :
    Nat → Nat → Nat → α × Nat × List Nat
  | 0, _, idx => (ret, idx, [])
  | mtries + 1, mdelay, idx =>
    match f idx with
    | some v => (v, idx + 1, [])
    | none =>
      let r := retryExec f backoff ret mtries (mdelay * backoff) (idx + 1)
      (r.1, r.2.1, mdelay :: r.2.2)

/-- Embedding of the `retry` decorator applied to a function: run up to
`tries` invocations starting from delay `delay`, returning `ret` on
exhaustion. -/
def retryWrap {α : Type} (f : Nat → Option α) (tries delay backoff : Nat) (ret : α) :
    α × Nat × List Nat :=
  retryExec f backoff ret tries delay 0

/-- A JSON value, as returned by `rep.json()` in the source. -/
inductive JVal where
  | jnull : JVal
  | jbool : Bool → JVal
  | jnum : Int → JVal
  | jstr : List Char → JVal
  | jarr : List JVal → JVal
  | jobj : List (List Char × JVal) → JVal

/-- Python `dict.get(k)`: the value under key `k`, or `None` (here `none`)
when absent. -/
def jget (fields : List (List Char × JVal)) (k : List Char) : Option JVal :=
  fields.lookup k

/-- Python truthiness of a JSON value (`None`, `False`, `0`, `''`, `[]`,
`{}` are falsy). -/
def truthy : JVal → Bool
  | .jnull => false
  | .jbool b => b
  | .jnum n => n != 0
  | .jstr s => !s.isEmpty
  | .jarr xs => !xs.isEmpty
  | .jobj fs => !fs.isEmpty

/-- Python `a or b` on an optional value: `a` when present and truthy,
otherwise `b`. -/
def pyOr (v : Option JVal) (k : JVal) : JVal :=
  match v with
  | some x => if truthy x then x else k
  | none => k

/-- The field selection `data.get('files') or data.get('list') or []` of
`get_current_season_list` (src/plugins/anistrm, line 164). -/
def filesJson (fields : List (List Char × JVal)) : JVal :=
  pyOr (jget fields (("files").data)) (pyOr (jget fields (("list").data)) (.jarr []))

/-- Python iteration over a value (`for item in files_json`): lists yield
their items, strings their characters (as one-character strings), dicts
their keys; other values raise `TypeError` (modelled as `none`, which
propagates to the retry decorator). -/
def pyIterItems : JVal → Option (List JVal)
  | .jarr xs => some xs
  | .jstr s => some (s.map (fun c => .jstr [c]))
  | .jobj fs => some (fs.map (fun f => .jstr f.1))
  | _ => none

/-- Python whitespace (the characters `str.strip()` removes). -/
def isPyWs (c : Char) : Bool :=
  c == ' ' || c == '\t' || c == '\n' || c == '\r' || c == '\x0b' || c == '\x0c'

/-- Python `s.strip()`: remove leading and trailing whitespace. -/
def pstrip (s : List Char) : List Char :=
  ((s.dropWhile isPyWs).reverse.dropWhile isPyWs).reverse

/-- The item-processing loop of `get_current_season_list` (lines 165-171):
`name = item.get('name') if isinstance(item, dict) else item`, keep it when
it is a string with non-blank strip, appending `name.strip()`. -/
def itemName : JVal → Option JVal
  | .jobj fs => jget fs (("name").data)
  | v => some v

/-- The names extracted from the iterated items. -/
def extractNames (items : List JVal) : List (List Char) :=
  items.filterMap fun item =>
    match itemName item with
    | some (.jstr s) => if pstrip s = [] then none else some (pstrip s)
    | _ => none

/-- One attempt of `get_current_season_list` (src/plugins/anistrm, lines
145-171) as a function of the response: a network error raises (`none`,
subject to retry); a body that fails `rep.json()` is caught and yields `[]`
without raising; a JSON object yields the extracted names of its selected
`files`/`list` field, where trying to iterate a non-iterable selected value
or calling `.get` on a non-object body raises (subject to retry). -/
inductive SeasonResp where
  | netError : SeasonResp
  | notJson : SeasonResp
  | json : JVal → SeasonResp

/-- The body of one invocation of the wrapped `get_current_season_list`. -/
def seasonAttempt (r : SeasonResp) : Option (List (List Char)) :=
  match r with
  | .netError => none
  | .notJson => some []
  | .json v =>
    match v with
    | .jobj fields =>
      match pyIterItems (filesJson fields) with
      | some items => some (extractNames items)
      | none => none
    | _ => none

/-- `get_current_season_list` as deployed: the attempt body wrapped by
`@retry(Exception, tries=3, logger=logger, ret=[])` (delay 3, backoff 1).
`resps i` is the response of the i-th network attempt. -/
def getCurrentSeasonListW (resps : Nat → SeasonResp) : List (List Char) × Nat × List Nat :=
  retryWrap (fun i => seasonAttempt (resps i)) 3 3 1 []

/-- Configuration of the disk-space monitor
(src/plugins.v2/disk_space_monitor): alert threshold in percent, cooldown
in minutes, and the `only_once_until_recover` switch. -/
structure DMConfig where
  thresholdPct : ℚ
  cooldownMin : Int
  onlyOnce : Bool

/-- The monitor's per-path mutable state: `_last_alert_at` (epoch seconds;
the source's `dict.get(path, 0)` default is the initial value 0) and
`_alerted_under_threshold`. -/
structure DMState where
  lastAlert : Int
  wasUnder : Bool

/-- Embedding of the per-path body of `DiskMonitor._run_check`
(src/plugins.v2/disk_space_monitor, lines 184-222) for one check at time
`now` with a disk reading of `total`/`free` bytes: compute the free
percentage, and below the threshold either skip (already alerted and not
recovered, when `only_once_until_recover`; or inside the cooldown window,
when not `only_once_until_recover`) or send the alert and record the time
and the under-threshold flag; at or above the threshold send a recovery
notice if one was pending and clear the flag.  Returns the new state,
whether a low-space alert was sent, and whether a recovery notice was
sent. -/
def runCheckPath (cfg : DMConfig) (st : DMState) (now : Int) (total free : Int) :
    DMState × Bool × Bool :=
  let freePct : ℚ := if total ≠ 0 then ((free : ℚ) / (total : ℚ)) * 100 else 0
  let inCooldown : Prop := now - st.lastAlert < cfg.cooldownMin * 60
  if freePct < cfg.thresholdPct then
    if cfg.onlyOnce = true ∧ st.wasUnder = true then (st, false, false)
    else if inCooldown ∧ ¬ cfg.onlyOnce = true then (st, false, false)
    else ({ lastAlert := now, wasUnder := true }, true, false)
  else
    ({ st with wasUnder := false }, false, st.wasUnder)

-- concrete sanity checks against the Python behaviour
example : normalizeOpenaniUrl (("http://h/a.mp4").data) = ("http://h/a.mp4?d=true").data := by decide
example : normalizeOpenaniUrl (("http://h/a?d=mp4").data) = ("http://h/a.mp4?d=true").data := by decide
example : normalizeOpenaniUrl [] = [] := by decide
example : normalizeOpenaniUrl (("x").data) = ("x.mp4?d=true").data := by decide
example : normalizeOpenaniUrl (("a?d=mp4x").data) = ("a.mp4?d=truex").data := by decide
example :
    normalizeOpenaniUrl (normalizeOpenaniUrl (("a?d=mp4x").data)) =
      ("a.mp4?d=truex.mp4?d=true").data := by decide

/-- Appending a suffix makes the result end with that suffix. -/
theorem endsWith_append (x s : List Char) : endsWith (x ++ s) s = true :=
  List.isSuffixOf_iff_suffix.mpr (List.suffix_append x s)

/-- A string ending with the canonical suffix is returned unchanged by the
normalizer (rule 1 of `_normalize_openani_url`). -/
theorem normalize_of_endsWith_canon {z : List Char} (h : endsWith z canonSuffix = true) :
    normalizeOpenaniUrl z = z := by
  have hz : z ≠ [] := by
    rcases List.isSuffixOf_iff_suffix.mp h with ⟨t, ht⟩
    intro hnil
    rw [hnil] at ht
    rcases List.append_eq_nil.mp ht with ⟨-, hc⟩
    exact absurd hc (by decide)
  simp [normalizeOpenaniUrl, hz, h]

/-- The media extension followed by the query tail is the canonical suffix. -/
theorem mp4_append_query : mp4Ext ++ dTrueQuery = canonSuffix := by decide

/-- C3 counterexample: `_normalize_openani_url` is not idempotent.  On the
input `a?d=mp4x` (marker `?d=mp4` present at a non-final position) the first
pass yields `a.mp4?d=truex`, which no longer ends in `.mp4?d=true` and
contains no marker, so a second pass appends `.mp4?d=true` again. -/
theorem anistrm_C3_cex :
    normalizeOpenaniUrl (normalizeOpenaniUrl (("a?d=mp4x").data)) ≠
      normalizeOpenaniUrl (("a?d=mp4x").data) := by decide

/-- C3 (amended): `_normalize_openani_url` is idempotent on every input that
already ends in `.mp4?d=true` or contains no occurrence of the marker
`?d=mp4`; for inputs containing the marker at a non-final position
idempotence fails (see the counterexample). -/
theorem anistrm_C3_idempotent_amended (x : List Char)
    (h : endsWith x canonSuffix = true ∨ containsMarker x = false) :
    normalizeOpenaniUrl (normalizeOpenaniUrl x) = normalizeOpenaniUrl x := by
  by_cases hx : x = []
  · subst hx
    simp [normalizeOpenaniUrl]
  · by_cases hcanon : endsWith x canonSuffix = true
    · simp only [normalize_of_endsWith_canon hcanon]
    · have hm : containsMarker x = false := h.resolve_left hcanon
      have hcanon' : endsWith x canonSuffix = false := by
        simpa using hcanon
      by_cases hext : endsWith x mp4Ext = true
      · have hNx : normalizeOpenaniUrl x = x ++ dTrueQuery := by
          simp [normalizeOpenaniUrl, hx, hcanon', hm, hext]
        rcases List.isSuffixOf_iff_suffix.mp hext with ⟨y, hy⟩
        have hcat : x ++ dTrueQuery = y ++ canonSuffix := by
          rw [← hy, List.append_assoc, mp4_append_query]
        rw [hNx, hcat]
        exact normalize_of_endsWith_canon (endsWith_append y canonSuffix)
      · have hext' : endsWith x mp4Ext = false := by
          simpa using hext
        have hNx : normalizeOpenaniUrl x = x ++ canonSuffix := by
          simp [normalizeOpenaniUrl, hx, hcanon', hm, hext']
        rw [hNx]
        exact normalize_of_endsWith_canon (endsWith_append x canonSuffix)

/-- Witness for the amended C3 theorem at the concrete marker-free input
`http://h/a.mp4`. -/
theorem anistrm_C3_idempotent_amended_w :
    normalizeOpenaniUrl (normalizeOpenaniUrl (("http://h/a.mp4").data)) =
      normalizeOpenaniUrl (("http://h/a.mp4").data) :=
  anistrm_C3_idempotent_amended (("http://h/a.mp4").data) (Or.inr (by decide))

/-- C6: the normalization policy of `_normalize_openani_url` — four rules
applied in order with first match winning, as a total function: empty input
maps to empty output; an input already ending in `.mp4?d=true` is returned
unchanged; an input containing the marker `?d=mp4` has the marker rewritten
to the canonical suffix (so `http://h/a?d=mp4` maps to
`http://h/a.mp4?d=true`); an input ending in `.mp4` without a marker gets
`?d=true` appended (so `http://h/a.mp4` maps to `http://h/a.mp4?d=true`);
any other input gets `.mp4?d=true` appended. -/
theorem anistrm_C6_normalize_rules (x : List Char) :
    normalizeOpenaniUrl [] = [] ∧
    (endsWith x canonSuffix = true → normalizeOpenaniUrl x = x) ∧
    (endsWith x canonSuffix = false → containsMarker x = true →
      normalizeOpenaniUrl x = replaceMarker x) ∧
    normalizeOpenaniUrl (("http://h/a?d=mp4").data) = ("http://h/a.mp4?d=true").data ∧
    (endsWith x canonSuffix = false → containsMarker x = false →
      endsWith x mp4Ext = true → normalizeOpenaniUrl x = x ++ dTrueQuery) ∧
    normalizeOpenaniUrl (("http://h/a.mp4").data) = ("http://h/a.mp4?d=true").data ∧
    (x ≠ [] → endsWith x canonSuffix = false → containsMarker x = false →
      endsWith x mp4Ext = false → normalizeOpenaniUrl x = x ++ canonSuffix) := by
  refine ⟨by decide, ?_, ?_, by decide, ?_, by decide, ?_⟩
  · exact fun h => normalize_of_endsWith_canon h
  · intro hcanon hm
    have hx : x ≠ [] := by
      intro hnil
      rw [hnil] at hm
      exact absurd hm (by decide)
    simp [normalizeOpenaniUrl, hx, hcanon, hm]
  · intro hcanon hm hext
    have hx : x ≠ [] := by
      intro hnil
      rw [hnil] at hext
      exact absurd hext (by decide)
    simp [normalizeOpenaniUrl, hx, hcanon, hm, hext]
  · intro hx hcanon hm hext
    simp [normalizeOpenaniUrl, hx, hcanon, hm, hext]

/-- Witness for C6: rules 3 and 4 of the normalizer applied at concrete
inputs through the theorem itself. -/
theorem anistrm_C6_normalize_rules_w :
    normalizeOpenaniUrl (("b.mp4").data) = ("b.mp4").data ++ dTrueQuery ∧
    normalizeOpenaniUrl (("xyz").data) = ("xyz").data ++ canonSuffix :=
  ⟨(anistrm_C6_normalize_rules (("b.mp4").data)).2.2.2.2.1 (by decide) (by decide) (by decide),
   (anistrm_C6_normalize_rules (("xyz").data)).2.2.2.2.2.2 (by decide) (by decide) (by decide)
     (by decide)⟩

/-- C8: for every calendar date (year, month with 1 ≤ month ≤ 12),
`__get_ani_season` returns the string `{year}-{bucket}` where the bucket is
the spec's quarterly bucket of the month; the mapping is a pure function,
so the same date always yields the same period string. -/
theorem anistrm_C8_period (year month : Nat) (h1 : 1 ≤ month) (h2 : month ≤ 12) :
    getAniSeason year month = Nat.toDigits 10 year ++ '-' :: Nat.toDigits 10 (specBucket month) := by
  interval_cases month <;> rfl

/-- Witness for C8 at the concrete date 2025-05. -/
theorem anistrm_C8_period_w :
    getAniSeason 2025 5 = Nat.toDigits 10 2025 ++ '-' :: Nat.toDigits 10 (specBucket 5) :=
  anistrm_C8_period 2025 5 (by decide) (by decide)

example : pquote (("Show A").data) = ("Show%20A").data := by decide

/-- C1: no-clobber invariant of `__touch_strm_file` — whenever the target
file `{storageRoot}/{n}.strm` already exists (with any content `c`), the
call returns `created = false`, leaves the whole file map unchanged, and in
particular the existing content is preserved; this holds for every direct
link argument and every injected mkdir/write outcome, so the second of two
calls with the same name creates nothing and leaves the first call's bytes
intact. -/
theorem anistrm_C1_no_clobber (env : FsEnv) (storageplace date fileName c : List Char)
    (fileUrl : Option (List Char)) (fs : FS)
    (h : fs.files.lookup (pathOf storageplace fileName) = some c) :
    (touchStrmFile env storageplace date fs fileName fileUrl).2 = false ∧
    (touchStrmFile env storageplace date fs fileName fileUrl).1.files = fs.files ∧
    (touchStrmFile env storageplace date fs fileName fileUrl).1.files.lookup
      (pathOf storageplace fileName) = some c := by
  have hsome : (fs.files.lookup (pathOf storageplace fileName)).isSome = true := by
    rw [h]; rfl
  unfold touchStrmFile touchWrite
  by_cases h1 : storageplace ≠ [] ∧ storageplace ∉ fs.dirs
  · by_cases h2 : env.mkdirOk = true
    · simp [h1, h2, hsome, h]
    · simp only [Bool.not_eq_true] at h2
      simp [h1, h2, h]
  · simp [h1, hsome, h]

/-- Witness for C1: with the file `A.strm` already present containing `X`,
a call with a different direct link creates nothing and preserves `X`. -/
theorem anistrm_C1_no_clobber_w :
    (touchStrmFile ⟨true, true⟩ (("/r").data) (("2025-1").data)
        { dirs := [], files := [(pathOf (("/r").data) (("A").data), ("X").data)] }
        (("A").data) (some (("http://h/b.mp4").data))).2 = false ∧
    (touchStrmFile ⟨true, true⟩ (("/r").data) (("2025-1").data)
        { dirs := [], files := [(pathOf (("/r").data) (("A").data), ("X").data)] }
        (("A").data) (some (("http://h/b.mp4").data))).1.files =
      [(pathOf (("/r").data) (("A").data), ("X").data)] ∧
    (touchStrmFile ⟨true, true⟩ (("/r").data) (("2025-1").data)
        { dirs := [], files := [(pathOf (("/r").data) (("A").data), ("X").data)] }
        (("A").data) (some (("http://h/b.mp4").data))).1.files.lookup
      (pathOf (("/r").data) (("A").data)) = some (("X").data) :=
  anistrm_C1_no_clobber ⟨true, true⟩ (("/r").data) (("2025-1").data) (("A").data) (("X").data)
    (some (("http://h/b.mp4").data))
    { dirs := [], files := [(pathOf (("/r").data) (("A").data), ("X").data)] } (by decide)

/-- When the storage root is absent and `os.makedirs` fails,
`__touch_strm_file` returns `False` and leaves the filesystem untouched. -/
theorem touch_mkdir_fail (env : FsEnv) (sp date n : List Char) (u : Option (List Char)) (fs : FS)
    (hm : env.mkdirOk = false) (hsp : sp ≠ []) (hdir : sp ∉ fs.dirs) :
    touchStrmFile env sp date fs n u = (fs, false) := by
  unfold touchStrmFile
  simp [hsp, hdir, hm]

/-- Under a persistently failing `os.makedirs`, the full-backfill loop
leaves the filesystem unchanged, creates nothing, and still attempts every
entry. -/
theorem taskFull_mkdir_fail (env : FsEnv) (sp date : List Char) (fs : FS)
    (names : List (List Char))
    (hm : env.mkdirOk = false) (hsp : sp ≠ []) (hdir : sp ∉ fs.dirs) :
    taskFullTrace env sp date fs names = (fs, 0, names.map (fun _ => false)) := by
  induction names with
  | nil => rfl
  | cons n rest ih =>
    simp [taskFullTrace, touch_mkdir_fail env sp date n none fs hm hsp hdir, ih]

/-- Under a persistently failing `os.makedirs`, the incremental loop leaves
the filesystem unchanged, creates nothing, and still attempts every entry. -/
theorem taskLatest_mkdir_fail (env : FsEnv) (sp date : List Char) (fs : FS)
    (rss : List (List Char × List Char))
    (hm : env.mkdirOk = false) (hsp : sp ≠ []) (hdir : sp ∉ fs.dirs) :
    taskLatestTrace env sp date fs rss = (fs, 0, rss.map (fun _ => false)) := by
  induction rss with
  | nil => rfl
  | cons e rest ih =>
    simp [taskLatestTrace, touch_mkdir_fail env sp date e.1 (some e.2) fs hm hsp hdir, ih]

/-- C4 counterexample: with an uncreatable storage root (`makedirs` always
failing) and two listed names, `__task` does not stop after the failure —
it attempts materialization for both entries (per-entry trace has length 2,
not at most 1) and completes normally with a created count of 0; the code
has no failed terminal state, contradicting the claim that no partial
materialization is attempted and that the run ends rather than continuing
entry by entry. -/
theorem anistrm_C4_cex :
    (taskFullTrace ⟨false, true⟩ (("/r").data) (("2025-1").data) { dirs := [], files := [] }
        [("a").data, ("b").data]).2.2.length = 2 ∧
    ¬ ((taskFullTrace ⟨false, true⟩ (("/r").data) (("2025-1").data) { dirs := [], files := [] }
        [("a").data, ("b").data]).2.2.length ≤ 1) ∧
    (taskFullTrace ⟨false, true⟩ (("/r").data) (("2025-1").data) { dirs := [], files := [] }
        [("a").data, ("b").data]).2.1 = 0 := by decide

/-- C4 (amended): if the storage root directory cannot be created, no
reference file is materialized for any entry — but the run is not aborted:
`__task` continues entry by entry (each `__touch_strm_file` call catches
the `makedirs` failure and returns `False`), leaves the filesystem
unchanged, and completes normally with `filesCreated = 0`; this holds for
both retrieval modes. -/
theorem anistrm_C4_amended (env : FsEnv) (sp date : List Char) (fs : FS) (fulladd : Bool)
    (rss : List (List Char × List Char)) (names : List (List Char))
    (hm : env.mkdirOk = false) (hsp : sp ≠ []) (hdir : sp ∉ fs.dirs) :
    (taskTrace env sp date fs fulladd rss names).1 = fs ∧
    (taskTrace env sp date fs fulladd rss names).2.1 = 0 ∧
    (taskTrace env sp date fs fulladd rss names).2.2 =
      (if fulladd then names.map (fun _ => false) else rss.map (fun _ => false)) := by
  unfold taskTrace
  by_cases hf : fulladd = true
  · simp [hf, taskFull_mkdir_fail env sp date fs names hm hsp hdir]
  · simp only [Bool.not_eq_true] at hf
    simp [hf, taskLatest_mkdir_fail env sp date fs rss hm hsp hdir]

/-- Witness for the amended C4 theorem at a concrete two-entry backfill run
with a failing `makedirs`. -/
theorem anistrm_C4_amended_w :
    (taskTrace ⟨false, true⟩ (("/r").data) (("2025-1").data) { dirs := [], files := [] } true []
        [("a").data, ("b").data]).1 = { dirs := [], files := [] } ∧
    (taskTrace ⟨false, true⟩ (("/r").data) (("2025-1").data) { dirs := [], files := [] } true []
        [("a").data, ("b").data]).2.1 = 0 ∧
    (taskTrace ⟨false, true⟩ (("/r").data) (("2025-1").data) { dirs := [], files := [] } true []
        [("a").data, ("b").data]).2.2 =
      (if true then ([("a").data, ("b").data] : List (List Char)).map (fun _ => false)
       else ([] : List (List Char × List Char)).map (fun _ => false)) :=
  anistrm_C4_amended ⟨false, true⟩ (("/r").data) (("2025-1").data) { dirs := [], files := [] }
    true [] [("a").data, ("b").data] rfl (by decide) (by decide)

/-- The target path determines the display name (the storage root and the
extension are fixed affixes). -/
theorem pathOf_inj {sp a b : List Char} (h : pathOf sp a = pathOf sp b) : a = b := by
  unfold pathOf at h
  have h1 : '/' :: (a ++ strmExt) = '/' :: (b ++ strmExt) := List.append_cancel_left h
  exact List.append_cancel_right (List.cons.inj h1).2

/-- When the target file is absent and both filesystem operations succeed,
`__touch_strm_file` with no direct link creates the file containing the
derived season URL. -/
theorem touch_creates (env : FsEnv) (sp date n : List Char) (fs : FS)
    (hw : env.writeOk = true) (hm : env.mkdirOk = true)
    (habs : fs.files.lookup (pathOf sp n) = none) :
    (touchStrmFile env sp date fs n none).2 = true ∧
    (touchStrmFile env sp date fs n none).1.files =
      (pathOf sp n, defaultSrcUrl date n) :: fs.files := by
  have hnone : (fs.files.lookup (pathOf sp n)).isSome = false := by
    rw [habs]; rfl
  unfold touchStrmFile touchWrite srcUrlFor
  by_cases h1 : sp ≠ [] ∧ sp ∉ fs.dirs
  · simp [h1, hm, hw, hnone]
  · simp [h1, hm, hw, hnone]

/-- C5 counterexample: the full-period listing can contain a repeated name
(the source does not deduplicate); on the listing `["a", "a"]` over an
empty storage root the run creates only one file, so the reported created
count is 1, not the listing length 2 demanded by the claim. -/
theorem anistrm_C5_cex :
    (taskFullTrace ⟨true, true⟩ (("/r").data) (("2025-1").data) { dirs := [], files := [] }
        [("a").data, ("a").data]).2.1 = 1 ∧
    ([("a").data, ("a").data] : List (List Char)).length = 2 ∧
    (1 : Nat) ≠ 2 := by decide

/-- C5 (amended): in full-backfill mode over a storage root containing none
of the target files, with the directory creatable and writes succeeding,
if the full-period listing returns pairwise-distinct names for period `p`,
the run creates exactly one file per name at `{storageRoot}/{n}.strm` whose
entire content is `https://openani.an-i.workers.dev/{p}/{e}.mp4?d=true`
with `e` the percent-encoded name, and the created count equals the number
of names (with repeated names only the first occurrence creates a file, so
the count is the number of distinct names). -/
theorem anistrm_C5_amended (env : FsEnv) (sp date : List Char) (fs : FS)
    (names : List (List Char))
    (hw : env.writeOk = true) (hm : env.mkdirOk = true) (hnd : names.Nodup)
    (habs : ∀ n ∈ names, fs.files.lookup (pathOf sp n) = none) :
    (taskFullTrace env sp date fs names).2.1 = names.length ∧
    (taskFullTrace env sp date fs names).1.files =
      names.reverse.map (fun n => (pathOf sp n, defaultSrcUrl date n)) ++ fs.files := by
  induction names generalizing fs with
  | nil => exact ⟨rfl, rfl⟩
  | cons n rest ih =>
    rcases List.nodup_cons.mp hnd with ⟨hn, hrest⟩
    rcases touch_creates env sp date n fs hw hm (habs n (by simp)) with ⟨hcreated, hfiles⟩
    have habs' : ∀ m ∈ rest,
        (touchStrmFile env sp date fs n none).1.files.lookup (pathOf sp m) = none := by
      intro m hmem
      rw [hfiles]
      have hne : (pathOf sp m == pathOf sp n) = false := by
        refine beq_eq_false_iff_ne.mpr fun he => hn ?_
        exact pathOf_inj he ▸ hmem
      simpa [List.lookup, hne] using habs m (by simp [hmem])
    rcases ih (touchStrmFile env sp date fs n none).1 hrest habs' with ⟨ihc, ihf⟩
    constructor
    · simp [taskFullTrace, hcreated, ihc, Nat.add_comm]
    · simp [taskFullTrace, ihf, hfiles, List.map_append]

/-- Witness for the amended C5 theorem: a concrete backfill with names
`a` and `b` over an empty root creates both files with the derived URLs
and reports 2 created. -/
theorem anistrm_C5_amended_w :
    (taskFullTrace ⟨true, true⟩ (("/r").data) (("2025-1").data) { dirs := [], files := [] }
        [("a").data, ("b").data]).2.1 = ([("a").data, ("b").data] : List (List Char)).length ∧
    (taskFullTrace ⟨true, true⟩ (("/r").data) (("2025-1").data) { dirs := [], files := [] }
        [("a").data, ("b").data]).1.files =
      ([("a").data, ("b").data] : List (List Char)).reverse.map
        (fun n => (pathOf (("/r").data) n, defaultSrcUrl (("2025-1").data) n)) ++
        (FS.mk [] []).files :=
  anistrm_C5_amended ⟨true, true⟩ (("/r").data) (("2025-1").data) { dirs := [], files := [] }
    [("a").data, ("b").data] rfl rfl (by decide) (by intro n hn; rfl)

/-- A display name without a separator lands directly in the storage root:
the parent directory of the built path is the root itself. -/
theorem parentDir_flat (sp n : List Char) (h : '/' ∉ n) : parentDir (pathOf sp n) = sp := by
  have hz : List.dropWhile (fun c => c != '/') (n ++ strmExt).reverse = [] := by
    refine List.dropWhile_eq_nil_iff.mpr ?_
    intro x hx
    rw [List.mem_reverse, List.mem_append] at hx
    rcases hx with hx | hx
    · exact bne_iff_ne.mpr fun he => h (he ▸ hx)
    · refine bne_iff_ne.mpr fun he => ?_
      subst he
      revert hx
      decide
  unfold parentDir pathOf
  rw [List.reverse_append, List.reverse_cons, List.append_assoc, List.singleton_append,
    List.dropWhile_append, hz]
  simp [List.dropWhile_cons]

/-- A display name containing a separator escapes the flat storage root:
the parent directory of the built path is strictly longer than the root. -/
theorem parentDir_nonflat (sp n : List Char) (h : '/' ∈ n) :
    parentDir (pathOf sp n) ≠ sp := by
  have hz : List.dropWhile (fun c => c != '/') (n ++ strmExt).reverse ≠ [] := by
    intro hnil
    have hall := List.dropWhile_eq_nil_iff.mp hnil '/'
      (by rw [List.mem_reverse, List.mem_append]; exact Or.inl h)
    simp at hall
  have hie : (List.dropWhile (fun c => c != '/') (n ++ strmExt).reverse).isEmpty = false :=
    List.isEmpty_eq_false.mpr hz
  unfold parentDir pathOf
  rw [List.reverse_append, List.reverse_cons, List.append_assoc, List.singleton_append,
    List.dropWhile_append, hie, if_neg (by decide)]
  intro heq
  have hlen := congrArg List.length heq
  simp only [List.length_reverse, List.length_drop, List.length_append, List.length_cons] at hlen
  have hdpos : 0 < (List.dropWhile (fun c => c != '/') (n ++ strmExt).reverse).length :=
    List.length_pos.mpr hz
  omega

/-- C9 counterexample: the display name `..` contains `..` yet the built
path `/downloads/strm/..strm` still denotes a file directly inside the flat
storage root (its parent directory is the root), so a name containing `..`
without a separator is not placed outside the storage-root directory. -/
theorem anistrm_C9_cex :
    parentDir (pathOf (("/downloads/strm").data) (("..").data)) = ("/downloads/strm").data := by
  decide

/-- C9 (amended): `__touch_strm_file` builds the target path by raw
interpolation `{storageRoot}/{displayName}.strm`, inserting the display
name verbatim with no sanitization (percent-encoding applies only to the
URL written as content); consequently every display name containing a path
separator yields a path whose parent directory differs from the storage
root (the file escapes the flat directory), while a separator-free name —
even one containing `..` — stays directly inside the root. -/
theorem anistrm_C9_amended (sp n : List Char) :
    pathOf sp n = sp ++ '/' :: (n ++ strmExt) ∧
    ('/' ∈ n → parentDir (pathOf sp n) ≠ sp) ∧
    ('/' ∉ n → parentDir (pathOf sp n) = sp) :=
  ⟨rfl, fun h => parentDir_nonflat sp n h, fun h => parentDir_flat sp n h⟩

/-- Witness for the amended C9 theorem: the name `../x` contains a
separator and its built path escapes the flat root `/r`. -/
theorem anistrm_C9_amended_w :
    pathOf (("/r").data) (("../x").data) = ("/r").data ++ '/' :: ((("../x").data) ++ strmExt) ∧
    parentDir (pathOf (("/r").data) (("../x").data)) ≠ ("/r").data :=
  ⟨(anistrm_C9_amended (("/r").data) (("../x").data)).1,
   (anistrm_C9_amended (("/r").data) (("../x").data)).2.1 (by decide)⟩

/-- The retry loop performs at most `tries` further invocations. -/
theorem retryExec_count_le (α : Type) (f : Nat → Option α) (backoff : Nat) (ret : α) :
    ∀ (tries mdelay idx : Nat), (retryExec f backoff ret tries mdelay idx).2.1 ≤ idx + tries := by
  intro tries
  induction tries with
  | zero =>
    intro mdelay idx
    simp [retryExec]
  | succ t ih =>
    intro mdelay idx
    cases hf : f idx with
    | some v =>
      simp [retryExec, hf]
    | none =>
      have := ih (mdelay * backoff) (idx + 1)
      simp [retryExec, hf]
      omega

/-- If the invocations at offsets `0..i-1` fail and the one at offset `i`
succeeds within the try budget, the loop returns that value after exactly
`i + 1` further invocations. -/
theorem retryExec_first_success (α : Type) (f : Nat → Option α) (backoff : Nat) (ret : α) :
    ∀ (tries i idx mdelay : Nat) (v : α), (∀ j, j < i → f (idx + j) = none) →
      f (idx + i) = some v → i < tries →
      (retryExec f backoff ret tries mdelay idx).1 = v ∧
      (retryExec f backoff ret tries mdelay idx).2.1 = idx + i + 1 := by
  intro tries
  induction tries with
  | zero =>
    intro i idx mdelay v _ _ hlt
    exact absurd hlt (Nat.not_lt_zero i)
  | succ t ih =>
    intro i idx mdelay v hfail hsucc hlt
    cases i with
    | zero =>
      have h0 : f idx = some v := by simpa using hsucc
      exact ⟨by simp [retryExec, h0], by simp [retryExec, h0]⟩
    | succ k =>
      have h0 : f idx = none := by simpa using hfail 0 (Nat.succ_pos k)
      have hf1 : ∀ j, j < k → f (idx + 1 + j) = none := by
        intro j hj
        have h2 := hfail (j + 1) (by omega)
        have h3 : idx + (j + 1) = idx + 1 + j := by omega
        rwa [h3] at h2
      have hs1 : f (idx + 1 + k) = some v := by
        have h3 : idx + (k + 1) = idx + 1 + k := by omega
        rwa [h3] at hsucc
      have hrec := ih k (idx + 1) (mdelay * backoff) v hf1 hs1 (by omega)
      refine ⟨by simp [retryExec, h0, hrec.1], ?_⟩
      have h4 := hrec.2
      simp [retryExec, h0]
      omega

/-- If every invocation within the try budget fails, the loop returns the
configured default after exactly `tries` further invocations, and the
slept delays form the geometric sequence `mdelay * backoff ^ k`. -/
theorem retryExec_exhaust (α : Type) (f : Nat → Option α) (backoff : Nat) (ret : α) :
    ∀ (tries idx mdelay : Nat), (∀ j, j < tries → f (idx + j) = none) →
      (retryExec f backoff ret tries mdelay idx).1 = ret ∧
      (retryExec f backoff ret tries mdelay idx).2.1 = idx + tries ∧
      (retryExec f backoff ret tries mdelay idx).2.2 =
        (List.range tries).map (fun k => mdelay * backoff ^ k) := by
  intro tries
  induction tries with
  | zero =>
    intro idx mdelay _
    exact ⟨rfl, rfl, rfl⟩
  | succ t ih =>
    intro idx mdelay hfail
    have h0 : f idx = none := by simpa using hfail 0 (Nat.succ_pos t)
    have hf1 : ∀ j, j < t → f (idx + 1 + j) = none := by
      intro j hj
      have h2 := hfail (j + 1) (by omega)
      have h3 : idx + (j + 1) = idx + 1 + j := by omega
      rwa [h3] at h2
    have hrec := ih (idx + 1) (mdelay * backoff) hf1
    refine ⟨by simp [retryExec, h0, hrec.1], ?_, ?_⟩
    · have h4 := hrec.2.1
      simp [retryExec, h0]
      omega
    · have h5 := hrec.2.2
      simp [retryExec, h0, h5]
      rw [List.range_succ_eq_map, List.map_cons, List.map_map, pow_zero, Nat.mul_one]
      congr 1
      have hfun : ((fun k => mdelay * backoff ^ k) ∘ Nat.succ) =
          fun k => mdelay * backoff * backoff ^ k := by
        funext k
        simp [Function.comp, pow_succ]
        ring
      rw [hfun]

-- sanity checks of the extraction against the Python behaviour
example :
    extractNames [JVal.jobj [(("name").data, JVal.jstr ((" A ").data))],
      JVal.jstr (("B").data), JVal.jstr (("  ").data), JVal.jnum 5,
      JVal.jobj []] = [("A").data, ("B").data] := by decide

/-- C2: semantics of the `retry` decorator.  For every wrapped call and
every configuration with `tries ≥ 1`: the wrapper invokes the call at most
`tries` times; if the first `i` invocations raise and invocation `i`
succeeds within the budget, its value is returned after exactly `i + 1`
invocations; if every invocation raises the configured exception class,
the wrapper returns the configured default `ret` after exactly `tries`
invocations and the slept delays grow geometrically (`delay * backoff ^ k`
before retry `k + 1`, i.e. each delay is the previous one multiplied by
the backoff); in particular if every attempt of the full-period listing
raises a network error, `get_current_season_list` returns the empty list
and the run completes without raising. -/
theorem anistrm_C2_retry (α : Type) (f : Nat → Option α) (tries delay backoff : Nat) (ret : α)
    (i : Nat) (v : α) (resps : Nat → SeasonResp) (htries : 1 ≤ tries) :
    (retryWrap f tries delay backoff ret).2.1 ≤ tries ∧
    ((∀ j, j < i → f j = none) → f i = some v → i < tries →
      (retryWrap f tries delay backoff ret).1 = v ∧
      (retryWrap f tries delay backoff ret).2.1 = i + 1) ∧
    ((∀ j, j < tries → f j = none) →
      (retryWrap f tries delay backoff ret).1 = ret ∧
      (retryWrap f tries delay backoff ret).2.1 = tries ∧
      (retryWrap f tries delay backoff ret).2.2 =
        (List.range tries).map (fun k => delay * backoff ^ k)) ∧
    ((∀ j, j < 3 → resps j = SeasonResp.netError) →
      (getCurrentSeasonListW resps).1 = []) := by
  refine ⟨?_, ?_, ?_, ?_⟩
  · have h := retryExec_count_le α f backoff ret tries delay 0
    simpa [retryWrap] using h
  · intro hfail hsucc hlt
    have h := retryExec_first_success α f backoff ret tries i 0 delay v
      (by intro j hj; simpa using hfail j hj) (by simpa using hsucc) hlt
    exact ⟨by simpa [retryWrap] using h.1, by simpa [retryWrap] using h.2⟩
  · intro hfail
    have h := retryExec_exhaust α f backoff ret tries 0 delay
      (by intro j hj; simpa using hfail j hj)
    exact ⟨by simpa [retryWrap] using h.1, by simpa [retryWrap] using h.2.1,
      by simpa [retryWrap] using h.2.2⟩
  · intro hall
    have h := retryExec_exhaust (List (List Char)) (fun i => seasonAttempt (resps i)) 1 [] 3 0 3
      (by intro j hj; simp [hall j hj, seasonAttempt])
    simpa [getCurrentSeasonListW, retryWrap] using h.1

/-- Witness for C2: a call that fails once then succeeds, under the
source's configuration `tries = 3`, returns the success value after two
invocations; a call that always fails returns the default after three. -/
theorem anistrm_C2_retry_w :
    (retryWrap (fun i => if i = 1 then some 7 else none) 3 3 1 (0 : Nat)).1 = 7 ∧
    (retryWrap (fun i => if i = 1 then some 7 else none) 3 3 1 (0 : Nat)).2.1 = 1 + 1 ∧
    (getCurrentSeasonListW (fun _ => SeasonResp.netError)).1 = [] := by
  have h := anistrm_C2_retry Nat (fun i => if i = 1 then some 7 else none) 3 3 1 0 1 7
    (fun _ => SeasonResp.netError) (by decide)
  have hfail : ∀ j, j < 1 → (fun i => if i = 1 then some (7 : Nat) else none) j = none := by
    intro j hj
    interval_cases j
    rfl
  have hsucc : (fun i => if i = 1 then some (7 : Nat) else none) 1 = some 7 := rfl
  have hall : ∀ j, j < 3 → (fun _ : Nat => SeasonResp.netError) j = SeasonResp.netError := by
    intro j hj
    rfl
  exact ⟨(h.2.1 hfail hsucc (by decide)).1, (h.2.1 hfail hsucc (by decide)).2, h.2.2.2 hall⟩

/-- C7 counterexample: the source selects the name array with
`data.get('files') or data.get('list') or []`, which falls through on a
*falsy* (e.g. empty) `files` field, not only on an absent one.  On the body
`{"files": [], "list": ["a"]}` the code returns `["a"]`, whereas the claim
(items of the `files` field whenever it is present) demands `[]`. -/
theorem anistrm_C7_cex :
    seasonAttempt (SeasonResp.json (JVal.jobj
      [(("files").data, JVal.jarr []),
       (("list").data, JVal.jarr [JVal.jstr (("a").data)])])) = some [("a").data] ∧
    some [("a").data] ≠ some ([] : List (List Char)) := by decide

/-- C7 (amended): when the response body fails to parse as JSON,
`get_current_season_list` returns the empty list after a single request
(the parse failure is caught inside the attempt, so the retry wrapper sees
a success and does not re-issue the request); when it parses as an object,
the returned sequence is exactly the extraction over the selected field,
where the `files` field is selected when present and truthy (non-empty),
otherwise the `list` field when present and truthy, otherwise the empty
array — items contribute their `name` field when they are objects and
themselves when they are strings, non-strings and blank names are dropped,
and surrounding whitespace is trimmed from every returned name. -/
theorem anistrm_C7_amended (resps : Nat → SeasonResp) (fields : List (List Char × JVal))
    (items : List JVal) (v : JVal) :
    (resps 0 = SeasonResp.notJson → getCurrentSeasonListW resps = ([], 1, [])) ∧
    (filesJson fields = JVal.jarr items →
      seasonAttempt (SeasonResp.json (JVal.jobj fields)) = some (extractNames items)) ∧
    (jget fields (("files").data) = some v → truthy v = true → filesJson fields = v) ∧
    (jget fields (("files").data) = none →
      filesJson fields = pyOr (jget fields (("list").data)) (JVal.jarr [])) ∧
    (jget fields (("files").data) = some v → truthy v = false →
      filesJson fields = pyOr (jget fields (("list").data)) (JVal.jarr [])) ∧
    seasonAttempt (SeasonResp.json (JVal.jobj
      [(("files").data, JVal.jarr [JVal.jobj [(("name").data, JVal.jstr ((" A ").data))],
        JVal.jstr (("B").data), JVal.jstr (("  ").data), JVal.jnum 5])])) =
      some [("A").data, ("B").data] := by
  refine ⟨?_, ?_, ?_, ?_, ?_, by decide⟩
  · intro h
    simp [getCurrentSeasonListW, retryWrap, retryExec, h, seasonAttempt]
  · intro h
    simp [seasonAttempt, h, pyIterItems]
  · intro h ht
    simp [filesJson, pyOr, h, ht]
  · intro h
    simp [filesJson, pyOr, h]
  · intro h ht
    simp [filesJson, pyOr, h, ht]

/-- Witness for the amended C7 theorem: a non-JSON body yields the empty
list after one request, and a truthy `files` field is selected. -/
theorem anistrm_C7_amended_w :
    getCurrentSeasonListW (fun _ => SeasonResp.notJson) = ([], 1, []) ∧
    filesJson [(("files").data, JVal.jarr [JVal.jstr (("a").data)])] =
      JVal.jarr [JVal.jstr (("a").data)] :=
  ⟨(anistrm_C7_amended (fun _ => SeasonResp.notJson)
      [(("files").data, JVal.jarr [JVal.jstr (("a").data)])] []
      (JVal.jarr [JVal.jstr (("a").data)])).1 rfl,
   (anistrm_C7_amended (fun _ => SeasonResp.notJson)
      [(("files").data, JVal.jarr [JVal.jstr (("a").data)])] []
      (JVal.jarr [JVal.jstr (("a").data)])).2.2.1 rfl rfl⟩

/-- C10 (code bug): the per-path alert cooldown is not honoured when
`only_once_until_recover` is set.  With threshold 10%, cooldown 60 minutes
and `only_once_until_recover = true`, starting from the initial state:
a check at t=1000s with 5% free sends an alert; a check at t=1600s with
50% free sends the recovery notice and clears the under-threshold flag; a
check at t=2200s with 5% free then sends a second low-space alert only
1200 seconds — far less than the 3600-second cooldown — after the first,
because the cooldown guard is skipped whenever `only_once_until_recover`
is true.  This contradicts the configuration's own documented contract
that the same path is not re-alerted within the cooldown window. -/
theorem diskmonitor_C10_cooldown_bug :
    (runCheckPath ⟨10, 60, true⟩ ⟨0, false⟩ 1000 100 5).2.1 = true ∧
    (runCheckPath ⟨10, 60, true⟩
      (runCheckPath ⟨10, 60, true⟩ ⟨0, false⟩ 1000 100 5).1 1600 100 50).2.2 = true ∧
    (runCheckPath ⟨10, 60, true⟩
      (runCheckPath ⟨10, 60, true⟩
        (runCheckPath ⟨10, 60, true⟩ ⟨0, false⟩ 1000 100 5).1 1600 100 50).1
      2200 100 5).2.1 = true ∧
    ((2200 : Int) - 1000 < 60 * 60) := by
  refine ⟨?_, ?_, ?_, by norm_num⟩ <;>
    norm_num [runCheckPath]
